import Mathlib

/-!
Verification of the geospatial photo-selection engine and metadata
extractor of the photo-map viewer repository (variants `aiaiail/main.py`
and `kivy/main.py`), against its natural-language specification.

The Python code is shallowly embedded: the engine math (`haversine`,
`compute_bearing`, `angle_difference`, the selection and ordering in
`update_left_pane`) is modelled over the real numbers, with the Python
float modulo operator `x % m` rendered as `pymod` (for a positive
modulus `m`, Python returns `x - m * floor (x / m)`, a value in
`[0, m)`).  The extractor arithmetic (degree/minute/second conversion,
hemisphere sign flips, EXIF rationals) is modelled over `ℚ` so that it
stays executable.
-/

namespace Horizon

/-- Python float modulo `x % m`: for a positive modulus the result is
`x - m * ⌊x / m⌋`, which lies in `[0, m)`. -/
noncomputable def pymod (x m : ℝ) : ℝ := x - m * ⌊x / m⌋

/-- `angle_difference` from `aiaiail/main.py` lines 113-115:
`diff = (a2 - a1 + 180 + 360) % 360 - 180`. -/
noncomputable def angle_difference (a1 a2 : ℝ) : ℝ :=
  pymod (a2 - a1 + 180 + 360) 360 - 180

lemma pymod_eq_fract (x : ℝ) {m : ℝ} (hm : m ≠ 0) :
    pymod x m = m * Int.fract (x / m) := by
  unfold pymod
  rw [Int.fract, mul_sub, mul_div_cancel₀ _ hm]

lemma pymod_nonneg (x : ℝ) {m : ℝ} (hm : 0 < m) : 0 ≤ pymod x m := by
  rw [pymod_eq_fract x hm.ne']
  exact mul_nonneg hm.le (Int.fract_nonneg _)

lemma pymod_lt (x : ℝ) {m : ℝ} (hm : 0 < m) : pymod x m < m := by
  rw [pymod_eq_fract x hm.ne']
  calc m * Int.fract (x / m) < m * 1 :=
        (mul_lt_mul_left hm).mpr (Int.fract_lt_one _)
    _ = m := mul_one m

lemma pymod_add_int_mul (x : ℝ) {m : ℝ} (hm : m ≠ 0) (k : ℤ) :
    pymod (x + m * k) m = pymod x m := by
  unfold pymod
  have h : (x + m * k) / m = x / m + k := by
    field_simp
    ring
  rw [h, Int.floor_add_int]
  push_cast
  ring

lemma pymod_of_int_mul_add (x : ℝ) {m : ℝ} (hm : m ≠ 0) (k : ℤ)
    (y : ℝ) (hy : y = x + m * k) : pymod y m = pymod x m := by
  rw [hy, pymod_add_int_mul x hm k]

lemma pymod_720_360 : pymod 720 360 = 0 := by
  unfold pymod
  rw [show (720 : ℝ) / 360 = ((2 : ℤ) : ℝ) by norm_num, Int.floor_intCast]
  norm_num

lemma pymod_540_360 : pymod 540 360 = 180 := by
  unfold pymod
  have h : ⌊(540 : ℝ) / 360⌋ = 1 := by
    rw [Int.floor_eq_iff]
    norm_num
  rw [h]
  norm_num

lemma angle_difference_self (a : ℝ) : angle_difference a a = 0 := by
  unfold angle_difference
  rw [show a - a + 180 + 360 = 540 by ring, pymod_540_360]
  norm_num

lemma angle_difference_add_180 (a : ℝ) :
    angle_difference a (a + 180) = -180 := by
  unfold angle_difference
  rw [show a + 180 - a + 180 + 360 = 720 by ring, pymod_720_360]
  norm_num

lemma angle_difference_lb (a1 a2 : ℝ) : -180 ≤ angle_difference a1 a2 := by
  unfold angle_difference
  have h := pymod_nonneg (a2 - a1 + 180 + 360) (show (0:ℝ) < 360 by norm_num)
  linarith

lemma angle_difference_ub (a1 a2 : ℝ) : angle_difference a1 a2 < 180 := by
  unfold angle_difference
  have h := pymod_lt (a2 - a1 + 180 + 360) (show (0:ℝ) < 360 by norm_num)
  linarith

/-- Claim C1, counterexample: at `a1 = 0`, `a2 = 180` the value of
`angle_difference` is `-180`, which does not lie in the half-open
interval `(-180, 180]` claimed by the specification. -/
theorem angle_difference_at_180_leaves_Ioc :
    angle_difference 0 180 = -180 ∧
      ¬(-180 < angle_difference 0 180 ∧ angle_difference 0 180 ≤ 180) := by
  have h : angle_difference 0 180 = -180 := by
    have := angle_difference_add_180 0
    simpa using this
  refine ⟨h, ?_⟩
  rw [h]
  intro hc
  exact absurd hc.1 (by norm_num)

/-- Claim C1, amended: for all real `a1`, `a2`,
`angle_difference a1 a2 = ((a2 - a1 + 180 + 360) mod 360) - 180` lies in
the half-open interval `[-180, 180)` (Python `%` with positive modulus
returns a value in `[0, 360)`), and `angle_difference a a = 0`. -/
theorem angle_difference_range_and_self (a1 a2 a : ℝ) :
    -180 ≤ angle_difference a1 a2 ∧ angle_difference a1 a2 < 180 ∧
      angle_difference a a = 0 :=
  ⟨angle_difference_lb a1 a2, angle_difference_ub a1 a2,
    angle_difference_self a⟩

/-- Python `math.radians`. -/
noncomputable def radians (x : ℝ) : ℝ := x * (Real.pi / 180)

/-- Python `math.degrees`. -/
noncomputable def degrees (x : ℝ) : ℝ := x * (180 / Real.pi)

/-- Python `math.atan2 a b`: the angle of the point with abscissa `b` and
ordinate `a`, in `(-π, π]`, rendered as the complex argument. -/
noncomputable def atan2 (a b : ℝ) : ℝ := Complex.arg ⟨b, a⟩

/-- The intermediate value `a` of `haversine` in `aiaiail/main.py`
lines 92-98: `sin(dlat/2)**2 + cos(lat1_rad)*cos(lat2_rad)*sin(dlon/2)**2`. -/
noncomputable def haversine_a (lon1 lat1 lon2 lat2 : ℝ) : ℝ :=
  let lon1_rad := radians lon1
  let lat1_rad := radians lat1
  let lon2_rad := radians lon2
  let lat2_rad := radians lat2
  let dlon := lon2_rad - lon1_rad
  let dlat := lat2_rad - lat1_rad
  Real.sin (dlat / 2) ^ 2 +
    Real.cos lat1_rad * Real.cos lat2_rad * Real.sin (dlon / 2) ^ 2

/-- `haversine` from `aiaiail/main.py` lines 92-101:
`c = 2 * asin(sqrt(a))`, result `c * r` with `r = 6371` km. -/
noncomputable def haversine (lon1 lat1 lon2 lat2 : ℝ) : ℝ :=
  let a := haversine_a lon1 lat1 lon2 lat2
  let c := 2 * Real.arcsin (Real.sqrt a)
  let r : ℝ := 6371
  c * r

/-- `compute_bearing` from `aiaiail/main.py` lines 103-111. -/
noncomputable def compute_bearing (lat1 lon1 lat2 lon2 : ℝ) : ℝ :=
  let lat1_rad := radians lat1
  let lat2_rad := radians lat2
  let diffLong := radians (lon2 - lon1)
  let x := Real.sin diffLong * Real.cos lat2_rad
  let y := Real.cos lat1_rad * Real.sin lat2_rad -
    Real.sin lat1_rad * Real.cos lat2_rad * Real.cos diffLong
  let initial_bearing := atan2 x y
  let compass_bearing := pymod (degrees initial_bearing + 360) 360
  compass_bearing

lemma sin_half_sq (x : ℝ) : Real.sin (x / 2) ^ 2 = (1 - Real.cos x) / 2 := by
  have h1 : Real.cos (2 * (x / 2)) = 2 * Real.cos (x / 2) ^ 2 - 1 :=
    Real.cos_two_mul (x / 2)
  rw [show 2 * (x / 2) = x by ring] at h1
  have h2 := Real.sin_sq_add_cos_sq (x / 2)
  linarith

/-- Closed form of the haversine intermediate: half of one minus the
cosine of the central angle between the two points. -/
lemma haversine_a_eq (lon1 lat1 lon2 lat2 : ℝ) :
    haversine_a lon1 lat1 lon2 lat2 =
      (1 - (Real.sin (radians lat1) * Real.sin (radians lat2) +
        Real.cos (radians lat1) * Real.cos (radians lat2) *
          Real.cos (radians lon2 - radians lon1))) / 2 := by
  unfold haversine_a
  dsimp only
  rw [sin_half_sq, sin_half_sq, Real.cos_sub, Real.cos_sub]
  ring

/-- The cosine of the central angle between two points on the unit
sphere lies in `[-1, 1]`, for arbitrary real latitude/longitude. -/
lemma central_cos_bounds (p1 p2 d : ℝ) :
    -1 ≤ Real.sin p1 * Real.sin p2 + Real.cos p1 * Real.cos p2 * Real.cos d ∧
      Real.sin p1 * Real.sin p2 + Real.cos p1 * Real.cos p2 * Real.cos d ≤ 1 := by
  have h1 := Real.sin_sq_add_cos_sq p1
  have h2 := Real.sin_sq_add_cos_sq p2
  have h3 := Real.neg_one_le_cos d
  have h4 := Real.cos_le_one d
  constructor
  · nlinarith [sq_nonneg (Real.sin p1 + Real.sin p2),
      mul_nonneg (sq_nonneg (Real.cos p1 + Real.cos p2))
        (by linarith : (0:ℝ) ≤ 1 + Real.cos d),
      mul_nonneg (sq_nonneg (Real.cos p1 - Real.cos p2))
        (by linarith : (0:ℝ) ≤ 1 - Real.cos d)]
  · nlinarith [sq_nonneg (Real.sin p1 - Real.sin p2),
      mul_nonneg (sq_nonneg (Real.cos p1 - Real.cos p2))
        (by linarith : (0:ℝ) ≤ 1 + Real.cos d),
      mul_nonneg (sq_nonneg (Real.cos p1 + Real.cos p2))
        (by linarith : (0:ℝ) ≤ 1 - Real.cos d)]

lemma haversine_a_nonneg (lon1 lat1 lon2 lat2 : ℝ) :
    0 ≤ haversine_a lon1 lat1 lon2 lat2 := by
  rw [haversine_a_eq]
  have h := (central_cos_bounds (radians lat1) (radians lat2)
    (radians lon2 - radians lon1)).2
  linarith

lemma haversine_a_le_one (lon1 lat1 lon2 lat2 : ℝ) :
    haversine_a lon1 lat1 lon2 lat2 ≤ 1 := by
  rw [haversine_a_eq]
  have h := (central_cos_bounds (radians lat1) (radians lat2)
    (radians lon2 - radians lon1)).1
  linarith

/-- Claim C6: `compute_bearing` always returns a value in `[0, 360)`,
because its final step reduces modulo 360 with the Python `%` operator. -/
theorem compute_bearing_mem_Ico (lat1 lon1 lat2 lon2 : ℝ) :
    0 ≤ compute_bearing lat1 lon1 lat2 lon2 ∧
      compute_bearing lat1 lon1 lat2 lon2 < 360 := by
  unfold compute_bearing
  dsimp only
  exact ⟨pymod_nonneg _ (by norm_num), pymod_lt _ (by norm_num)⟩

/-- The point of the unit sphere named by a latitude/longitude pair in
degrees.  Two coordinate pairs denote the same geographic location
exactly when they name the same sphere point (identical coordinates,
but also any two longitudes at a pole, or longitudes 360 apart). -/
noncomputable def toSphere (lat lon : ℝ) : ℝ × ℝ × ℝ :=
  (Real.cos (radians lat) * Real.cos (radians lon),
   Real.cos (radians lat) * Real.sin (radians lon),
   Real.sin (radians lat))

lemma toSphere_norm (lat lon : ℝ) :
    (toSphere lat lon).1 ^ 2 + (toSphere lat lon).2.1 ^ 2 +
      (toSphere lat lon).2.2 ^ 2 = 1 := by
  unfold toSphere
  dsimp only
  have h1 := Real.sin_sq_add_cos_sq (radians lat)
  have h2 := Real.sin_sq_add_cos_sq (radians lon)
  linear_combination (Real.cos (radians lat)) ^ 2 * h2 + h1

/-- The haversine intermediate equals half of one minus the euclidean
inner product of the two sphere points. -/
lemma haversine_a_eq_sphere (lon1 lat1 lon2 lat2 : ℝ) :
    haversine_a lon1 lat1 lon2 lat2 =
      (1 - ((toSphere lat1 lon1).1 * (toSphere lat2 lon2).1 +
        (toSphere lat1 lon1).2.1 * (toSphere lat2 lon2).2.1 +
        (toSphere lat1 lon1).2.2 * (toSphere lat2 lon2).2.2)) / 2 := by
  rw [haversine_a_eq]
  unfold toSphere
  dsimp only
  rw [Real.cos_sub]
  ring

lemma unit_dot_eq_one_iff (x1 y1 z1 x2 y2 z2 : ℝ)
    (n1 : x1 ^ 2 + y1 ^ 2 + z1 ^ 2 = 1) (n2 : x2 ^ 2 + y2 ^ 2 + z2 ^ 2 = 1) :
    x1 * x2 + y1 * y2 + z1 * z2 = 1 ↔ x1 = x2 ∧ y1 = y2 ∧ z1 = z2 := by
  constructor
  · intro h
    have hsum : (x1 - x2) ^ 2 + (y1 - y2) ^ 2 + (z1 - z2) ^ 2 = 0 := by
      linear_combination n1 + n2 - 2 * h
    have hx : (x1 - x2) ^ 2 = 0 :=
      le_antisymm (by nlinarith [sq_nonneg (y1 - y2), sq_nonneg (z1 - z2)])
        (sq_nonneg _)
    have hy : (y1 - y2) ^ 2 = 0 :=
      le_antisymm (by nlinarith [sq_nonneg (x1 - x2), sq_nonneg (z1 - z2)])
        (sq_nonneg _)
    have hz : (z1 - z2) ^ 2 = 0 :=
      le_antisymm (by nlinarith [sq_nonneg (x1 - x2), sq_nonneg (y1 - y2)])
        (sq_nonneg _)
    exact ⟨sub_eq_zero.mp (pow_eq_zero_iff two_ne_zero |>.mp hx),
      sub_eq_zero.mp (pow_eq_zero_iff two_ne_zero |>.mp hy),
      sub_eq_zero.mp (pow_eq_zero_iff two_ne_zero |>.mp hz)⟩
  · rintro ⟨hx, hy, hz⟩
    rw [← hx, ← hy, ← hz] at n2 ⊢
    linear_combination n2

lemma haversine_a_self (lon lat : ℝ) : haversine_a lon lat lon lat = 0 := by
  unfold haversine_a
  dsimp only
  simp

lemma haversine_self (lon lat : ℝ) : haversine lon lat lon lat = 0 := by
  unfold haversine
  dsimp only
  rw [haversine_a_self, Real.sqrt_zero, Real.arcsin_zero]
  ring

lemma haversine_symm (lon1 lat1 lon2 lat2 : ℝ) :
    haversine lon1 lat1 lon2 lat2 = haversine lon2 lat2 lon1 lat1 := by
  have ha : haversine_a lon1 lat1 lon2 lat2 = haversine_a lon2 lat2 lon1 lat1 := by
    rw [haversine_a_eq, haversine_a_eq, Real.cos_sub, Real.cos_sub]
    ring
  unfold haversine
  dsimp only
  rw [ha]

lemma haversine_nonneg (lon1 lat1 lon2 lat2 : ℝ) :
    0 ≤ haversine lon1 lat1 lon2 lat2 := by
  unfold haversine
  dsimp only
  have h : 0 ≤ Real.arcsin (Real.sqrt (haversine_a lon1 lat1 lon2 lat2)) :=
    Real.arcsin_nonneg.mpr (Real.sqrt_nonneg _)
  nlinarith

lemma haversine_eq_zero_iff (lon1 lat1 lon2 lat2 : ℝ) :
    haversine lon1 lat1 lon2 lat2 = 0 ↔
      toSphere lat1 lon1 = toSphere lat2 lon2 := by
  have hnn := haversine_a_nonneg lon1 lat1 lon2 lat2
  have hdotEq := haversine_a_eq_sphere lon1 lat1 lon2 lat2
  have key := unit_dot_eq_one_iff _ _ _ _ _ _
    (toSphere_norm lat1 lon1) (toSphere_norm lat2 lon2)
  unfold haversine
  dsimp only
  rw [mul_eq_zero]
  constructor
  · rintro (hc | hr)
    · have harc : Real.arcsin (Real.sqrt (haversine_a lon1 lat1 lon2 lat2)) = 0 := by
        linarith
      have hs : Real.sqrt (haversine_a lon1 lat1 lon2 lat2) = 0 :=
        Real.arcsin_eq_zero_iff.mp harc
      have ha0 : haversine_a lon1 lat1 lon2 lat2 = 0 :=
        le_antisymm (Real.sqrt_eq_zero'.mp hs) hnn
      rw [hdotEq] at ha0
      obtain ⟨h1, h2, h3⟩ := key.mp (by linarith)
      have hmk : ((toSphere lat1 lon1).1, (toSphere lat1 lon1).2.1,
            (toSphere lat1 lon1).2.2) =
          ((toSphere lat2 lon2).1, (toSphere lat2 lon2).2.1,
            (toSphere lat2 lon2).2.2) := by
        rw [h1, h2, h3]
      exact hmk
    · norm_num at hr
  · intro h
    have hdot := key.mpr ⟨by rw [h], by rw [h], by rw [h]⟩
    have ha0 : haversine_a lon1 lat1 lon2 lat2 = 0 := by
      rw [hdotEq]
      linarith
    left
    rw [ha0, Real.sqrt_zero, Real.arcsin_zero, mul_zero]

/-- Claim C7: for all real coordinates, `haversine` is symmetric in its
two points, vanishes on a pair of identical coordinates, is
non-negative, and is zero exactly when the two latitude/longitude pairs
name the same point of the sphere (so, in particular, only when the two
points coincide geographically). -/
theorem haversine_symm_self_nonneg_zero_iff (lon1 lat1 lon2 lat2 : ℝ) :
    haversine lon1 lat1 lon2 lat2 = haversine lon2 lat2 lon1 lat1 ∧
      haversine lon1 lat1 lon1 lat1 = 0 ∧
      0 ≤ haversine lon1 lat1 lon2 lat2 ∧
      (haversine lon1 lat1 lon2 lat2 = 0 ↔
        toSphere lat1 lon1 = toSphere lat2 lon2) :=
  ⟨haversine_symm lon1 lat1 lon2 lat2, haversine_self lon1 lat1,
    haversine_nonneg lon1 lat1 lon2 lat2,
    haversine_eq_zero_iff lon1 lat1 lon2 lat2⟩

/-- One photo record of `aiaiail/main.py` (`scan_directory` lines 81-86):
file path, decimal coordinates, and the compass direction of the shot. -/
structure Photo where
  filepath : String
  latitude : ℝ
  longitude : ℝ
  direction : ℝ

/-- The selection loop of `update_left_pane` (`aiaiail/main.py` lines
180-187): for each photo, compute distance and bearing from the
viewpoint, and keep the pair `(distance, photo)` when the absolute
angular difference between the map rotation and the bearing is at most
30 degrees. -/
noncomputable def selected_photos (lat lng rotation : ℝ)
    (photo_list : List Photo) : List (ℝ × Photo) :=
  photo_list.filterMap (fun photo =>
    let distance := haversine lng lat photo.longitude photo.latitude
    let angle_to_photo := compute_bearing lat lng photo.latitude photo.longitude
    let angle_diff := angle_difference rotation angle_to_photo
    if |angle_diff| ≤ 30 then some (distance, photo) else none)

/-- The full selection result of `update_left_pane` (`aiaiail/main.py`
lines 180-190): the selected pairs, sorted ascending by distance with
Python `list.sort`, which is a stable sort. -/
noncomputable def update_left_pane (lat lng rotation : ℝ)
    (photo_list : List Photo) : List (ℝ × Photo) :=
  (selected_photos lat lng rotation photo_list).mergeSort
    (fun x y => decide (x.1 ≤ y.1))

lemma mem_selected_photos (lat lng rotation : ℝ) (l : List Photo)
    (d : ℝ) (p : Photo) :
    (d, p) ∈ selected_photos lat lng rotation l ↔
      p ∈ l ∧
        |angle_difference rotation
            (compute_bearing lat lng p.latitude p.longitude)| ≤ 30 ∧
        d = haversine lng lat p.longitude p.latitude := by
  unfold selected_photos
  rw [List.mem_filterMap]
  constructor
  · rintro ⟨a, ha, hfa⟩
    dsimp only at hfa
    by_cases hcond : |angle_difference rotation
        (compute_bearing lat lng a.latitude a.longitude)| ≤ 30
    · rw [if_pos hcond] at hfa
      simp only [Option.some.injEq, Prod.mk.injEq] at hfa
      obtain ⟨hd, hp⟩ := hfa
      subst hp
      exact ⟨ha, hcond, hd.symm⟩
    · rw [if_neg hcond] at hfa
      exact absurd hfa (by simp)
  · rintro ⟨hp, hcond, hd⟩
    refine ⟨p, hp, ?_⟩
    dsimp only
    rw [if_pos hcond, hd]

lemma mem_update_left_pane (lat lng rotation : ℝ) (l : List Photo)
    (d : ℝ) (p : Photo) :
    (d, p) ∈ update_left_pane lat lng rotation l ↔
      p ∈ l ∧
        |angle_difference rotation
            (compute_bearing lat lng p.latitude p.longitude)| ≤ 30 ∧
        d = haversine lng lat p.longitude p.latitude := by
  unfold update_left_pane
  rw [List.mem_mergeSort]
  exact mem_selected_photos lat lng rotation l d p

/-- Claim C2: a pair `(d, photo)` appears in the selection result exactly
when the photo is in the input list, the absolute angular difference
between the rotation and the bearing from viewpoint to photo is at most
30 degrees, and `d` is the haversine distance; in particular a photo
whose bearing equals the rotation is always selected, and a photo whose
bearing equals `rotation + 180` is never selected. -/
theorem selected_iff_within_30 (lat lng rotation : ℝ)
    (photo_list : List Photo) (photo : Photo) (d : ℝ) :
    ((d, photo) ∈ update_left_pane lat lng rotation photo_list ↔
      photo ∈ photo_list ∧
        |angle_difference rotation
            (compute_bearing lat lng photo.latitude photo.longitude)| ≤ 30 ∧
        d = haversine lng lat photo.longitude photo.latitude) ∧
    (compute_bearing lat lng photo.latitude photo.longitude = rotation →
      photo ∈ photo_list →
      (haversine lng lat photo.longitude photo.latitude, photo) ∈
        update_left_pane lat lng rotation photo_list) ∧
    (compute_bearing lat lng photo.latitude photo.longitude = rotation + 180 →
      (d, photo) ∉ update_left_pane lat lng rotation photo_list) := by
  refine ⟨mem_update_left_pane lat lng rotation photo_list d photo, ?_, ?_⟩
  · intro hb hmem
    refine (mem_update_left_pane lat lng rotation photo_list _ photo).mpr
      ⟨hmem, ?_, rfl⟩
    rw [hb, angle_difference_self]
    norm_num
  · intro hb hmem
    obtain ⟨-, hcond, -⟩ :=
      (mem_update_left_pane lat lng rotation photo_list d photo).mp hmem
    rw [hb, angle_difference_add_180] at hcond
    norm_num at hcond

lemma compute_bearing_north : compute_bearing 0 0 90 0 = 0 := by
  unfold compute_bearing
  dsimp only
  have hr0 : radians (0 - 0) = 0 := by
    unfold radians
    norm_num
  have hr0' : radians 0 = 0 := by
    unfold radians
    norm_num
  have hr90 : radians 90 = Real.pi / 2 := by
    unfold radians
    ring
  rw [hr0, hr0', hr90, Real.sin_zero, Real.cos_zero, Real.sin_pi_div_two,
    Real.cos_pi_div_two]
  have harg : atan2 (0 * 0) (1 * 1 - 0 * 0 * 1) = 0 := by
    unfold atan2
    have h1 : ((⟨1 * 1 - 0 * 0 * 1, 0 * 0⟩ : ℂ)) = 1 := by
      apply Complex.ext
      · norm_num
      · norm_num
    rw [h1, Complex.arg_one]
  rw [harg]
  have hdeg : degrees 0 = 0 := by
    unfold degrees
    norm_num
  rw [hdeg]
  have h360 : (0 : ℝ) + 360 = 0 + 360 * ((1 : ℤ) : ℝ) := by
    push_cast
    ring
  rw [h360, pymod_add_int_mul 0 (by norm_num : (360:ℝ) ≠ 0) 1]
  unfold pymod
  norm_num

/-- A concrete photo due north of the origin viewpoint, used to witness
claim C2. -/
def photoNorth : Photo :=
  { filepath := "north.jpg", latitude := 90, longitude := 0, direction := 0 }

/-- Witness for claim C2: with the viewpoint at the origin facing
rotation 0, the photo at latitude 90 has bearing exactly 0, so it is
selected. -/
theorem selected_iff_within_30_witness :
    (haversine 0 0 photoNorth.longitude photoNorth.latitude, photoNorth) ∈
      update_left_pane 0 0 0 [photoNorth] :=
  (selected_iff_within_30 0 0 0 [photoNorth] photoNorth 0).2.1
    compute_bearing_north (by simp)

/-- Claim C4: the selection result is pairwise non-decreasing in
distance, and for every distance value the sub-sequence of results at
that distance is exactly the sub-sequence of the unsorted selection (in
input order) at that distance: ties keep the input order. -/
theorem update_left_pane_sorted_stable (lat lng rotation : ℝ)
    (photo_list : List Photo) :
    (update_left_pane lat lng rotation photo_list).Pairwise
        (fun x y => x.1 ≤ y.1) ∧
      ∀ dv : ℝ,
        (update_left_pane lat lng rotation photo_list).filter
            (fun x => decide (x.1 = dv)) =
          (selected_photos lat lng rotation photo_list).filter
            (fun x => decide (x.1 = dv)) := by
  have htrans : ∀ a b c : ℝ × Photo,
      (fun x y : ℝ × Photo => decide (x.1 ≤ y.1)) a b →
      (fun x y : ℝ × Photo => decide (x.1 ≤ y.1)) b c →
      (fun x y : ℝ × Photo => decide (x.1 ≤ y.1)) a c := by
    intro a b c hab hbc
    simp only [decide_eq_true_eq] at hab hbc ⊢
    exact le_trans hab hbc
  have htotal : ∀ a b : ℝ × Photo,
      ((fun x y : ℝ × Photo => decide (x.1 ≤ y.1)) a b ||
        (fun x y : ℝ × Photo => decide (x.1 ≤ y.1)) b a) = true := by
    intro a b
    rcases le_total a.1 b.1 with h | h <;> simp [h]
  constructor
  · have hp := List.sorted_mergeSort htrans htotal
      (selected_photos lat lng rotation photo_list)
    exact hp.imp (fun h => by simpa using h)
  · intro dv
    set pre := selected_photos lat lng rotation photo_list with hpre
    set res := update_left_pane lat lng rotation photo_list with hres
    have hperm : List.Perm res pre := List.mergeSort_perm pre _
    have hfil_perm : List.Perm (res.filter (fun x => decide (x.1 = dv)))
        (pre.filter (fun x => decide (x.1 = dv))) :=
      hperm.filter _
    have hall : ∀ x ∈ pre.filter (fun x => decide (x.1 = dv)),
        (fun x : ℝ × Photo => decide (x.1 = dv)) x := by
      intro x hx
      exact (List.mem_filter.mp hx).2
    have hpw : (pre.filter (fun x => decide (x.1 = dv))).Pairwise
        (fun x y : ℝ × Photo => decide (x.1 ≤ y.1)) := by
      apply List.pairwise_of_forall_mem_list
      intro a ha b hb
      have ha1 : a.1 = dv := by simpa using hall a ha
      have hb1 : b.1 = dv := by simpa using hall b hb
      simp [ha1, hb1]
    have hsub : List.Sublist (pre.filter (fun x => decide (x.1 = dv))) res := by
      rw [hres]
      unfold update_left_pane
      rw [← hpre]
      exact List.sublist_mergeSort htrans htotal hpw (List.filter_sublist pre)
    have hsub2 : List.Sublist (pre.filter (fun x => decide (x.1 = dv)))
        (res.filter (fun x => decide (x.1 = dv))) := by
      have h1 := hsub.filter (fun x : ℝ × Photo => decide (x.1 = dv))
      rwa [List.filter_eq_self.mpr hall] at h1
    have hlen : (pre.filter (fun x => decide (x.1 = dv))).length =
        (res.filter (fun x => decide (x.1 = dv))).length :=
      hfil_perm.length_eq.symm
    exact (hsub2.eq_of_length hlen).symm

lemma angle_difference_pymod_left (a1 a2 : ℝ) :
    angle_difference (pymod a1 360) a2 = angle_difference a1 a2 := by
  unfold angle_difference
  congr 1
  have h : a2 - pymod a1 360 + 180 + 360 =
      (a2 - a1 + 180 + 360) + 360 * ((⌊a1 / 360⌋ : ℤ) : ℝ) := by
    unfold pymod
    ring
  rw [h, pymod_add_int_mul _ (by norm_num : (360:ℝ) ≠ 0) _]

/-- Claim C8: the selection result with any real rotation equals the
selection result with the rotation reduced modulo 360 (by the Python
`%` operation the code itself uses), for every viewpoint and photo
list. -/
theorem update_left_pane_rotation_mod (lat lng rotation : ℝ)
    (photo_list : List Photo) :
    update_left_pane lat lng rotation photo_list =
      update_left_pane lat lng (pymod rotation 360) photo_list := by
  unfold update_left_pane
  congr 1
  unfold selected_photos
  congr 1
  funext photo
  dsimp only
  rw [angle_difference_pymod_left]

/-- A degree/minute/second triple as read by `aiaiail/main.py`
(`_convert_to_degrees`, lines 43-47), each component already a number. -/
structure DMS where
  d : ℚ
  m : ℚ
  s : ℚ

/-- `_convert_to_degrees` from `aiaiail/main.py` lines 43-47. -/
def convert_to_degrees (v : DMS) : ℚ := v.d + v.m / 60 + v.s / 3600

/-- The GPS metadata fields consumed by the latitude/longitude part of
`get_lat_lon_direction` (`aiaiail/main.py` lines 51-58), with the four
required tags present. -/
structure GPSInfo where
  GPSLatitude : DMS
  GPSLatitudeRef : String
  GPSLongitude : DMS
  GPSLongitudeRef : String

/-- The latitude/longitude computation of `get_lat_lon_direction`
(`aiaiail/main.py` lines 51-58). -/
def get_lat_lon (g : GPSInfo) : ℚ × ℚ :=
  let lat0 := convert_to_degrees g.GPSLatitude
  let lat := if g.GPSLatitudeRef ≠ "N" then -lat0 else lat0
  let lon0 := convert_to_degrees g.GPSLongitude
  let lon := if g.GPSLongitudeRef ≠ "E" then -lon0 else lon0
  (lat, lon)

/-- An EXIF rational `num/den` as used by `kivy/main.py`. -/
structure ExifRat where
  num : ℤ
  den : ℤ

/-- The decimal value of an EXIF rational. -/
def ratVal (r : ExifRat) : ℚ := (r.num : ℚ) / (r.den : ℚ)

/-- A degree/minute/second triple of EXIF rationals (`kivy/main.py`
lines 30-34). -/
structure ExifDMS where
  d : ExifRat
  m : ExifRat
  s : ExifRat

/-- `_convert_to_degrees` from `kivy/main.py` lines 30-34. -/
def kivy_convert_to_degrees (v : ExifDMS) : ℚ :=
  ratVal v.d + ratVal v.m / 60 + ratVal v.s / 3600

/-- The EXIF tags consumed by `kivy/main.py`.  The GPS coordinate tags
may be absent; the two reference flags are modelled as plain strings
because the code dereferences them unconditionally once latitude and
longitude are present. -/
structure Tags where
  GPSLatitude : Option ExifDMS
  GPSLatitudeRef : String
  GPSLongitude : Option ExifDMS
  GPSLongitudeRef : String
  GPSImgDirection : Option ExifRat

/-- `get_decimal_coordinates` from `kivy/main.py` lines 29-51: when both
coordinate tags are present, convert each triple and apply the
hemisphere sign flips; otherwise return the pair `(None, None)`. -/
def get_decimal_coordinates (t : Tags) : Option ℚ × Option ℚ :=
  match t.GPSLatitude, t.GPSLongitude with
  | some glat, some glon =>
      let lat0 := kivy_convert_to_degrees glat
      let lon0 := kivy_convert_to_degrees glon
      let lat := if t.GPSLatitudeRef ≠ "N" then -lat0 else lat0
      let lon := if t.GPSLongitudeRef ≠ "E" then -lon0 else lon0
      (some lat, some lon)
  | _, _ => (none, none)

/-- `get_orientation` from `kivy/main.py` lines 55-59: the decimal value
of the first EXIF rational of the direction tag, when present. -/
def get_orientation (t : Tags) : Option ℚ :=
  t.GPSImgDirection.map ratVal

/-- Python truthiness of an optional float: `None` and `0.0` are falsy.
This is the test `if lat and lon:` of `kivy/main.py` line 74. -/
def truthy : Option ℚ → Bool
  | none => false
  | some x => decide (x ≠ 0)

/-- One indexed image record of `kivy/main.py` line 75. -/
structure KivyImage where
  path : String
  latitude : ℚ
  longitude : ℚ
  orientation : Option ℚ

/-- The per-file body of the scan loop in `scan_directory_for_images`
(`kivy/main.py` lines 70-75): extract coordinates and direction, and
keep the record only if `lat and lon` is truthy. -/
def process_file (ft : String × Tags) : Option KivyImage :=
  let c := get_decimal_coordinates ft.2
  if truthy c.1 && truthy c.2 then
    some { path := ft.1, latitude := c.1.getD 0, longitude := c.2.getD 0,
           orientation := get_orientation ft.2 }
  else none

/-- `scan_directory_for_images` from `kivy/main.py` lines 63-78,
abstracted over the directory walk: the input is the list of
(path, EXIF tags) pairs the walk yields; filesystem errors handled by
the try/except are outside the model. -/
def scan_directory_for_images (files : List (String × Tags)) :
    List KivyImage :=
  files.filterMap process_file

/-- Claim C9: both extractors convert a degree/minute/second triple
`(d, m, s)` to the decimal value `d + m/60 + s/3600`, negate the
latitude exactly when the latitude reference flag differs from "N", and
negate the longitude exactly when the longitude reference flag differs
from "E". -/
theorem extractor_dms_and_sign (g : GPSInfo) (glat glon : ExifDMS)
    (latRef lonRef : String) (dir : Option ExifRat) :
    get_lat_lon g =
      ((if g.GPSLatitudeRef = "N"
          then g.GPSLatitude.d + g.GPSLatitude.m / 60 + g.GPSLatitude.s / 3600
          else -(g.GPSLatitude.d + g.GPSLatitude.m / 60 +
            g.GPSLatitude.s / 3600)),
        (if g.GPSLongitudeRef = "E"
          then g.GPSLongitude.d + g.GPSLongitude.m / 60 +
            g.GPSLongitude.s / 3600
          else -(g.GPSLongitude.d + g.GPSLongitude.m / 60 +
            g.GPSLongitude.s / 3600))) ∧
    get_decimal_coordinates ⟨some glat, latRef, some glon, lonRef, dir⟩ =
      (some (if latRef = "N"
          then ratVal glat.d + ratVal glat.m / 60 + ratVal glat.s / 3600
          else -(ratVal glat.d + ratVal glat.m / 60 + ratVal glat.s / 3600)),
        some (if lonRef = "E"
          then ratVal glon.d + ratVal glon.m / 60 + ratVal glon.s / 3600
          else -(ratVal glon.d + ratVal glon.m / 60 +
            ratVal glon.s / 3600))) := by
  constructor
  · unfold get_lat_lon convert_to_degrees
    dsimp only
    by_cases h1 : g.GPSLatitudeRef = "N" <;>
      by_cases h2 : g.GPSLongitudeRef = "E" <;>
      simp [h1, h2]
  · unfold get_decimal_coordinates kivy_convert_to_degrees
    dsimp only
    by_cases h1 : latRef = "N" <;>
      by_cases h2 : lonRef = "E" <;>
      simp [h1, h2]

/-- Claim C10: in the kivy variant, a scanned photo whose extracted
latitude or longitude is exactly 0 (equator or prime meridian) is
excluded from the in-memory collection, because inclusion is tested via
Python truthiness of the coordinate values. -/
theorem zero_coordinate_photo_excluded (fp : String) (t : Tags)
    (h : (get_decimal_coordinates t).1 = some 0 ∨
      (get_decimal_coordinates t).2 = some 0) :
    scan_directory_for_images [(fp, t)] = [] ∧
    ∀ files1 files2 : List (String × Tags),
      scan_directory_for_images (files1 ++ (fp, t) :: files2) =
        scan_directory_for_images (files1 ++ files2) := by
  have hcond : (truthy (get_decimal_coordinates t).1 &&
      truthy (get_decimal_coordinates t).2) = false := by
    rcases h with h | h <;>
      rw [h] <;>
      simp [truthy]
  have hfn : process_file (fp, t) = none := by
    unfold process_file
    dsimp only
    rw [hcond]
    simp
  constructor
  · unfold scan_directory_for_images
    rw [List.filterMap_cons_none hfn, List.filterMap_nil]
  · intro files1 files2
    unfold scan_directory_for_images
    rw [List.filterMap_append, List.filterMap_append,
      List.filterMap_cons_none hfn]

/-- Concrete EXIF tags of a photo on the equator (latitude exactly 0,
longitude 10), used to witness claim C10. -/
def tagsEquator : Tags :=
  { GPSLatitude := some ⟨⟨0, 1⟩, ⟨0, 1⟩, ⟨0, 1⟩⟩,
    GPSLatitudeRef := "N",
    GPSLongitude := some ⟨⟨10, 1⟩, ⟨0, 1⟩, ⟨0, 1⟩⟩,
    GPSLongitudeRef := "E",
    GPSImgDirection := none }

/-- Witness for claim C10: the equator photo has a validly extracted
latitude of exactly 0 and is dropped by the scan. -/
theorem zero_coordinate_photo_excluded_witness :
    (get_decimal_coordinates tagsEquator).1 = some 0 ∧
      scan_directory_for_images [("equator.jpg", tagsEquator)] = [] := by
  have h : (get_decimal_coordinates tagsEquator).1 = some 0 := by
    unfold tagsEquator get_decimal_coordinates kivy_convert_to_degrees ratVal
    norm_num
  exact ⟨h,
    (zero_coordinate_photo_excluded "equator.jpg" tagsEquator (Or.inl h)).1⟩

end Horizon
